import Mathlib

/-!
Verification development for the genkit trace conversion and export
pipeline (go/genkit/trace_store_exporter.go).

The Go source is shallowly embedded: trace and span identifiers are
modelled as natural numbers whose rendered form (the Go hex String
method) is an always-nonempty, injective string; Go maps keyed by
strings are modelled as association lists with insert-or-replace
semantics; the cancellable context is modelled as a function from the
index of the per-group cancellation check to an optional error; the
trace store save contract is modelled as a function returning an
optional error code.
-/

set_option autoImplicit false

namespace Genkit

/-- Dynamic attribute value, the model of the Go interface value produced
by attribute.Value.AsInterface (a tagged union: the pipeline only passes
these through, it never inspects them). -/
inductive AVal where
  | str (s : String)
  | int (i : Int)
  | boolean (b : Bool)
  | strList (l : List String)
deriving DecidableEq, Repr

/-- Hexadecimal digit character, as produced by Go hex encoding. -/
def hexDigitChar (n : Nat) : Char :=
  if n < 10 then Char.ofNat (48 + n) else Char.ofNat (87 + n)

/-- Big-endian, zero-padded list of k hex digit characters of n, the model
of Go hex.EncodeToString over a fixed-width byte array. -/
def hexDigitsAux : Nat → Nat → List Char
  | 0, _ => []
  | k + 1, n => hexDigitsAux k (n / 16) ++ [hexDigitChar (n % 16)]

/-- Model of the Go trace.SpanID String method: 16 hex characters. -/
def spanIDString (n : Nat) : String :=
  String.mk (hexDigitsAux 16 n)

/-- Model of the Go trace.TraceID String method: 32 hex characters. -/
def traceIDString (n : Nat) : String :=
  String.mk (hexDigitsAux 32 n)

/-- Model of the Go trace.SpanContext: trace id and span id as numbers
(zero meaning the invalid, all-zero id), remote flag and trace flags. -/
structure RawSpanContext where
  traceID : Nat
  spanID : Nat
  isRemote : Bool
  traceFlags : Nat
deriving DecidableEq, Repr

/-- Model of the Go trace.SpanContext HasSpanID method: the span id
component is valid exactly when it is not the all-zero id. -/
def RawSpanContext.hasSpanID (sc : RawSpanContext) : Bool :=
  sc.spanID != 0

/-- Span kind of the OpenTelemetry SDK. -/
inductive SpanKind where
  | unspecified
  | internal
  | server
  | client
  | producer
  | consumer
deriving DecidableEq, Repr

/-- Model of the Go trace.SpanKind String method. -/
def SpanKind.string : SpanKind → String
  | .unspecified => "unspecified"
  | .internal => "internal"
  | .server => "server"
  | .client => "client"
  | .producer => "producer"
  | .consumer => "consumer"

/-- Model of the Go sdktrace.Status (code plus description). -/
structure RawStatus where
  code : Nat
  description : String
deriving DecidableEq, Repr

/-- Model of the Go sdktrace.Link (span context, attributes, dropped
attribute count). -/
structure RawLink where
  spanContext : RawSpanContext
  attributes : List (String × AVal)
  droppedAttributeCount : Int
deriving DecidableEq, Repr

/-- Model of the Go sdktrace.Event (name, attributes, time). Time values
are modelled as nanoseconds since the Unix epoch. -/
structure RawEvent where
  name : String
  attributes : List (String × AVal)
  time : Nat
deriving DecidableEq, Repr

/-- Modelled from the spec: the instrumentation library descriptor is
metadata identifying the producer (name/version) of a span; its Go
definition is outside the shown source. -/
structure InstrumentationLibrary where
  Name : String
  Version : String
deriving DecidableEq, Repr

/-- Model of the Go sdktrace.ReadOnlySpan interface: the raw span record
handed to the exporter, with its own span context, the declared parent
span context, times (nanoseconds), attributes, name, links, events,
instrumentation library, kind and status. -/
structure RawSpan where
  spanContext : RawSpanContext
  parent : RawSpanContext
  startTime : Nat
  endTime : Nat
  attributes : List (String × AVal)
  name : String
  links : List RawLink
  events : List RawEvent
  instrumentationLibrary : InstrumentationLibrary
  spanKind : SpanKind
  status : RawStatus
deriving DecidableEq, Repr

/-- Modelled from the spec: persisted Status wraps a numeric status code
(a uint32 in Go) plus optional description string. -/
structure Status where
  Code : Nat
  Description : String
deriving DecidableEq, Repr

/-- Modelled from the spec: persisted SpanContext of a Link. -/
structure SpanContext where
  TraceID : String
  SpanID : String
  IsRemote : Bool
  TraceFlags : Int
deriving DecidableEq, Repr

/-- Modelled from the spec: persisted Link (span context reference,
attribute mapping, dropped attribute count). -/
structure Link where
  SpanContext : SpanContext
  Attributes : List (String × AVal)
  DroppedAttributesCount : Int
deriving DecidableEq, Repr

/-- Modelled from the spec: an Annotation is a description string plus an
attribute mapping. -/
structure Annotation where
  Description : String
  Attributes : List (String × AVal)
deriving DecidableEq, Repr

/-- Modelled from the spec: a time event is a timestamp in microseconds
plus an Annotation. -/
structure TimeEvent where
  Time : Nat
  Anno : Annotation
deriving DecidableEq, Repr

/-- Modelled from the spec: wrapper holding the list of time events of a
span (the Go TimeEvents struct with its TimeEvent slice field). -/
structure TimeEvents where
  TimeEvent : List TimeEvent
deriving DecidableEq, Repr

/-- Modelled from the spec: wrapper struct around a boolean, used for the
SameProcessAsParentSpan field. -/
structure boolValue where
  Value : Bool
deriving DecidableEq, Repr

/-- Modelled from the spec: the persisted, store-ready span record, with
the field names fixed by the external interface section of the spec.
ParentSpanID defaults to the empty string (the Go zero value), which is
what marks a root span. -/
structure SpanData where
  SpanID : String
  TraceID : String
  StartTime : Nat
  EndTime : Nat
  Attributes : List (String × AVal)
  DisplayName : String
  Links : List Link
  InstrumentationLibrary : InstrumentationLibrary
  SpanKind : String
  SameProcessAsParentSpan : boolValue
  Status : Status
  ParentSpanID : String := ""
  TimeEvents : TimeEvents
deriving DecidableEq, Repr

/-- Modelled from the spec: the unit of persistence. DisplayName,
StartTime and EndTime default to the Go zero values; Spans maps span id
to span record. -/
structure TraceData where
  DisplayName : String := ""
  StartTime : Nat := 0
  EndTime : Nat := 0
  Spans : List (String × SpanData) := []
deriving DecidableEq, Repr

/-- Lookup in the association list model of a Go map keyed by strings. -/
def mapLookup {α : Type} : List (String × α) → String → Option α
  | [], _ => none
  | (k, v) :: t, key => if k = key then some v else mapLookup t key

/-- Insert-or-replace in the association list model of a Go map keyed by
strings: m[key] = v. -/
def mapInsert {α : Type} : List (String × α) → String → α → List (String × α)
  | [], key, v => [(key, v)]
  | (k, w) :: t, key, v => if k = key then (key, v) :: t else (k, w) :: mapInsert t key v

/-- Modelled from the spec: timeToMicroseconds is defined outside the
shown source; the spec fixes start/end times as integer microseconds
since the Unix epoch, so times (nanoseconds) are divided by 1000. -/
def timeToMicroseconds (t : Nat) : Nat :=
  t / 1000

/-- Translation of attributesToMap: fold the ordered attribute sequence
into a map, so a later occurrence of a key overwrites an earlier one. -/
def attributesToMap (attrs : List (String × AVal)) : List (String × AVal) :=
  attrs.foldl (fun m a => mapInsert m a.1 a.2) []

/-- Translation of convertStatus: copy the description and convert the
status code to uint32. -/
def convertStatus (s : RawStatus) : Status :=
  { Code := s.code % 4294967296, Description := s.description }

/-- Translation of convertSpanContext. -/
def convertSpanContext (sc : RawSpanContext) : SpanContext :=
  { TraceID := traceIDString sc.traceID
    SpanID := spanIDString sc.spanID
    IsRemote := sc.isRemote
    TraceFlags := Int.ofNat sc.traceFlags }

/-- Translation of convertLinks. -/
def convertLinks (links : List RawLink) : List Link :=
  links.map fun l =>
    { SpanContext := convertSpanContext l.spanContext
      Attributes := attributesToMap l.attributes
      DroppedAttributesCount := l.droppedAttributeCount }

/-- Translation of convertEvents. -/
def convertEvents (evs : List RawEvent) : List TimeEvent :=
  evs.map fun e =>
    { Time := timeToMicroseconds e.time
      Anno := { Description := e.name, Attributes := attributesToMap e.attributes } }

/-- Translation of convertSpan: the parent span id is set from the
declared parent only when that parent has a valid span id component,
otherwise it stays at the empty string. -/
def convertSpan (span : RawSpan) : SpanData :=
  { SpanID := spanIDString span.spanContext.spanID
    TraceID := traceIDString span.spanContext.traceID
    StartTime := timeToMicroseconds span.startTime
    EndTime := timeToMicroseconds span.endTime
    Attributes := attributesToMap span.attributes
    DisplayName := span.name
    Links := convertLinks span.links
    InstrumentationLibrary := span.instrumentationLibrary
    SpanKind := span.spanKind.string
    SameProcessAsParentSpan := { Value := !span.spanContext.isRemote }
    Status := convertStatus span.status
    ParentSpanID := if span.parent.hasSpanID then spanIDString span.parent.spanID else ""
    TimeEvents := { TimeEvent := convertEvents span.events } }

/-- Errors surfaced by the exporter: the multiple-root assembly error, a
store save error, and a context cancellation error (the latter two carry
an opaque error code). -/
inductive ExpErr where
  | multipleRootSpans
  | storeError (code : Nat)
  | cancelled (code : Nat)
deriving DecidableEq, Repr

/-- Translation of the loop body of convertTrace: walk the group in
order threading the TraceData under construction. A parentless span hits
the DisplayName sentinel check: if the header display name is already
nonempty the multiple-root error is returned, otherwise the header
fields are overwritten from this span. Every converted span is inserted
into the Spans map keyed by its span id. -/
def convertTraceLoop : List RawSpan → TraceData → Except ExpErr TraceData
  | [], td => Except.ok td
  | span :: rest, td =>
    if (convertSpan span).ParentSpanID = "" then
      if td.DisplayName ≠ "" then Except.error ExpErr.multipleRootSpans
      else convertTraceLoop rest
        { td with
          DisplayName := (convertSpan span).DisplayName
          StartTime := (convertSpan span).StartTime
          EndTime := (convertSpan span).EndTime
          Spans := mapInsert td.Spans (convertSpan span).SpanID (convertSpan span) }
    else convertTraceLoop rest
      { td with Spans := mapInsert td.Spans (convertSpan span).SpanID (convertSpan span) }

/-- Translation of convertTrace: start from the zero-valued TraceData
with an empty Spans map. -/
def convertTrace (spans : List RawSpan) : Except ExpErr TraceData :=
  convertTraceLoop spans { Spans := [] }

/-- Append a span to the group of its trace id, creating the group at
the end on first sight: the model of spansByTrace[tid] = append(...). -/
def addToGroup : List (Nat × List RawSpan) → Nat → RawSpan → List (Nat × List RawSpan)
  | [], tid, s => [(tid, [s])]
  | (t, g) :: rest, tid, s =>
    if t = tid then (t, g ++ [s]) :: rest else (t, g) :: addToGroup rest tid s

/-- Translation of the grouping loop of ExportSpans: partition the batch
by the trace id of each span, preserving relative order inside a group. -/
def groupByTrace (spans : List RawSpan) : List (Nat × List RawSpan) :=
  spans.foldl (fun m s => addToGroup m s.spanContext.traceID s) []

/-- Observable actions of the export loop, recorded in order: the
cancellation check at a given check index, the conversion (assembly) of
a group, and the save call for a group. -/
inductive Event where
  | checkCancel (i : Nat)
  | convert (tid : String)
  | save (tid : String)
deriving DecidableEq, Repr

/-- Translation of the per-group loop of ExportSpans, instrumented with
an event log. ctx models context.Err observed at successive check
points; store models the save contract (some code = error). For each
group in order: check cancellation once; on nil, assemble the group via
convertTrace; on success, call save with the rendered trace id; on save
success, record the saved document and continue. Any error is returned
immediately. Returns the result, the next check index, the saved
documents, and the event log. -/
def exportLoop (ctx : Nat → Option Nat) (store : String → TraceData → Option Nat) :
    List (Nat × List RawSpan) → Nat → List (String × TraceData) → List Event →
    Except ExpErr Unit × Nat × List (String × TraceData) × List Event
  | [], i, saved, log => (Except.ok (), i, saved, log)
  | (tid, spans) :: rest, i, saved, log =>
    match ctx i with
    | some e => (Except.error (ExpErr.cancelled e), i + 1, saved, log ++ [Event.checkCancel i])
    | none =>
      match convertTrace spans with
      | Except.error e =>
        (Except.error e, i + 1, saved,
          log ++ [Event.checkCancel i, Event.convert (traceIDString tid)])
      | Except.ok td =>
        match store (traceIDString tid) td with
        | some e =>
          (Except.error (ExpErr.storeError e), i + 1, saved,
            log ++ [Event.checkCancel i, Event.convert (traceIDString tid),
              Event.save (traceIDString tid)])
        | none =>
          exportLoop ctx store rest (i + 1) (saved ++ [(traceIDString tid, td)])
            (log ++ [Event.checkCancel i, Event.convert (traceIDString tid),
              Event.save (traceIDString tid)])

/-- Translation of ExportSpans: group the batch by trace id, then run
the per-group export loop from the empty state. -/
def ExportSpans (ctx : Nat → Option Nat) (store : String → TraceData → Option Nat)
    (spans : List RawSpan) : Except ExpErr Unit × Nat × List (String × TraceData) × List Event :=
  exportLoop ctx store (groupByTrace spans) 0 [] []

/-- Sample raw span builder used by concrete witnesses: trace id t, span
id sid, declared parent span id pid (zero meaning no valid parent) and
display name nm. -/
def mkSpan (t sid pid : Nat) (nm : String) : RawSpan :=
  { spanContext := { traceID := t, spanID := sid, isRemote := false, traceFlags := 1 }
    parent := { traceID := t, spanID := pid, isRemote := false, traceFlags := 1 }
    startTime := 1000000
    endTime := 2000000
    attributes := []
    name := nm
    links := []
    events := []
    instrumentationLibrary := { Name := "genkit-tracer", Version := "1" }
    spanKind := SpanKind.internal
    status := { code := 0, description := "" } }

/-! ## Helper lemmas -/

theorem hexDigitsAux_length (k : Nat) : ∀ n, (hexDigitsAux k n).length = k := by
  induction k with
  | zero => intro n; rfl
  | succ k ih => intro n; simp [hexDigitsAux, ih]

theorem spanIDString_ne_empty (n : Nat) : spanIDString n ≠ "" := by
  intro h
  have hd : hexDigitsAux 16 n = [] := congrArg String.data h
  have := hexDigitsAux_length 16 n
  rw [hd] at this
  simp at this

theorem mapLookup_insert {α : Type} (m : List (String × α)) (k key : String) (v : α) :
    mapLookup (mapInsert m k v) key = if k = key then some v else mapLookup m key := by
  induction m with
  | nil => simp [mapInsert, mapLookup]
  | cons hd tl ih =>
    obtain ⟨a, b⟩ := hd
    by_cases hak : a = k
    · subst hak
      by_cases hk : a = key <;> simp [mapInsert, mapLookup, hk]
    · by_cases hkey : a = key
      · subst hkey
        have : k ≠ a := fun h => hak h.symm
        simp [mapInsert, mapLookup, hak, this]
      · simp [mapInsert, mapLookup, hak, hkey, ih]

/-- The conversion of the last span of the list whose converted span id
equals the key, when one exists. -/
def lastConvWith : List RawSpan → String → Option SpanData
  | [], _ => none
  | s :: t, k =>
    match lastConvWith t k with
    | some sd => some sd
    | none => if (convertSpan s).SpanID = k then some (convertSpan s) else none

theorem lastConvWith_spanID (spans : List RawSpan) (k : String) (sd : SpanData)
    (h : lastConvWith spans k = some sd) : sd.SpanID = k := by
  induction spans with
  | nil => simp [lastConvWith] at h
  | cons hd tl ih =>
    rw [lastConvWith] at h
    rcases htl : lastConvWith tl k with _ | sd'
    · rw [htl] at h
      by_cases hid : (convertSpan hd).SpanID = k
      · simp [hid] at h
        rw [← h]; exact hid
      · simp [hid] at h
    · rw [htl] at h
      simp at h
      subst h
      exact ih htl

theorem lastConvWith_isSome_of_mem (spans : List RawSpan) (s : RawSpan) (h : s ∈ spans) :
    (lastConvWith spans ((convertSpan s).SpanID)).isSome = true := by
  induction spans with
  | nil => simp at h
  | cons hd tl ih =>
    rw [lastConvWith]
    rcases htl : lastConvWith tl ((convertSpan s).SpanID) with _ | sd'
    · rcases List.mem_cons.mp h with heq | hmem
      · subst heq; simp
      · have := ih hmem
        rw [htl] at this
        simp at this
    · simp

theorem lastConvWith_append (l1 l2 : List RawSpan) (k : String) :
    lastConvWith (l1 ++ l2) k
      = match lastConvWith l2 k with
        | some sd => some sd
        | none => lastConvWith l1 k := by
  induction l1 with
  | nil => cases h2 : lastConvWith l2 k <;> simp [lastConvWith, h2]
  | cons hd tl ih =>
    show lastConvWith (hd :: (tl ++ l2)) k = _
    rw [lastConvWith, ih]
    cases h2 : lastConvWith l2 k with
    | some sd => simp
    | none =>
      show _ = lastConvWith (hd :: tl) k
      rw [lastConvWith]

theorem lastConvWith_none (l : List RawSpan) (k : String)
    (h : ∀ s ∈ l, (convertSpan s).SpanID ≠ k) : lastConvWith l k = none := by
  induction l with
  | nil => rfl
  | cons hd tl ih =>
    rw [lastConvWith, ih (fun s hs => h s (List.mem_cons_of_mem hd hs)),
      if_neg (h hd (List.mem_cons_self hd tl))]

theorem convertTraceLoop_append (l1 l2 : List RawSpan) (td : TraceData) :
    convertTraceLoop (l1 ++ l2) td
      = match convertTraceLoop l1 td with
        | Except.ok td' => convertTraceLoop l2 td'
        | Except.error e => Except.error e := by
  induction l1 generalizing td with
  | nil => simp [convertTraceLoop]
  | cons hd tl ih =>
    show convertTraceLoop (hd :: (tl ++ l2)) td = _
    rw [convertTraceLoop, convertTraceLoop]
    by_cases hroot : (convertSpan hd).ParentSpanID = ""
    · rw [if_pos hroot, if_pos hroot]
      by_cases hdn : td.DisplayName ≠ ""
      · rw [if_pos hdn, if_pos hdn]
      · rw [if_neg hdn, if_neg hdn]
        exact ih _
    · rw [if_neg hroot, if_neg hroot]
      exact ih _

theorem convertTraceLoop_lookup (spans : List RawSpan) (td td' : TraceData)
    (h : convertTraceLoop spans td = Except.ok td') (k : String) :
    mapLookup td'.Spans k
      = match lastConvWith spans k with
        | some sd => some sd
        | none => mapLookup td.Spans k := by
  induction spans generalizing td with
  | nil =>
    rw [convertTraceLoop] at h
    cases h
    simp [lastConvWith]
  | cons hd tl ih =>
    rw [convertTraceLoop] at h
    by_cases hroot : (convertSpan hd).ParentSpanID = ""
    · rw [if_pos hroot] at h
      by_cases hdn : td.DisplayName ≠ ""
      · rw [if_pos hdn] at h; cases h
      · rw [if_neg hdn] at h
        have := ih _ h
        rw [lastConvWith, this]
        cases htl : lastConvWith tl k with
        | some sd => simp
        | none =>
          simp only [mapLookup_insert]
          by_cases hk : (convertSpan hd).SpanID = k <;> simp [hk]
    · rw [if_neg hroot] at h
      have := ih _ h
      rw [lastConvWith, this]
      cases htl : lastConvWith tl k with
      | some sd => simp
      | none =>
        simp only [mapLookup_insert]
        by_cases hk : (convertSpan hd).SpanID = k <;> simp [hk]

theorem convertTraceLoop_no_root (spans : List RawSpan) (td : TraceData)
    (h : ∀ s ∈ spans, (convertSpan s).ParentSpanID ≠ "") :
    ∃ td', convertTraceLoop spans td = Except.ok td'
      ∧ td'.DisplayName = td.DisplayName ∧ td'.StartTime = td.StartTime
      ∧ td'.EndTime = td.EndTime := by
  induction spans generalizing td with
  | nil => exact ⟨td, rfl, rfl, rfl, rfl⟩
  | cons hd tl ih =>
    rw [convertTraceLoop, if_neg (h hd (List.mem_cons_self hd tl))]
    exact ih _ (fun s hs => h s (List.mem_cons_of_mem hd hs))

theorem exportLoop_append (ctx : Nat → Option Nat) (store : String → TraceData → Option Nat)
    (l1 l2 : List (Nat × List RawSpan)) (i : Nat) (saved : List (String × TraceData))
    (log : List Event) :
    exportLoop ctx store (l1 ++ l2) i saved log
      = match exportLoop ctx store l1 i saved log with
        | (Except.ok _, i', saved', log') => exportLoop ctx store l2 i' saved' log'
        | (Except.error e, i', saved', log') => (Except.error e, i', saved', log') := by
  induction l1 generalizing i saved log with
  | nil => simp [exportLoop]
  | cons hd tl ih =>
    obtain ⟨tid, spans⟩ := hd
    simp only [List.cons_append, exportLoop]
    cases ctx i with
    | some e => simp
    | none =>
      simp only
      cases convertTrace spans with
      | error e => simp
      | ok td =>
        simp only
        cases store (traceIDString tid) td with
        | some e => simp
        | none => simp only; exact ih _ _ _

/-- Written from the spec wording for claim C8: the value of the last
occurrence of a key in the ordered attribute sequence, if any. Compared
against the source-derived attributesToMap. -/
def lastOccurrenceValue : List (String × AVal) → String → Option AVal
  | [], _ => none
  | (k, v) :: t, key =>
    match lastOccurrenceValue t key with
    | some w => some w
    | none => if k = key then some v else none

theorem attributesToMap_foldl (attrs : List (String × AVal)) (m : List (String × AVal))
    (k : String) :
    mapLookup (attrs.foldl (fun m a => mapInsert m a.1 a.2) m) k
      = match lastOccurrenceValue attrs k with
        | some v => some v
        | none => mapLookup m k := by
  induction attrs generalizing m with
  | nil => rfl
  | cons hd tl ih =>
    obtain ⟨a, v⟩ := hd
    show mapLookup (tl.foldl _ (mapInsert m a v)) k = _
    rw [ih]
    rw [show lastOccurrenceValue ((a, v) :: tl) k
      = match lastOccurrenceValue tl k with
        | some w => some w
        | none => if a = k then some v else none from rfl]
    cases lastOccurrenceValue tl k with
    | some w => simp
    | none =>
      simp only [mapLookup_insert]
      by_cases hk : a = k <;> simp [hk]

theorem lastOccurrenceValue_isSome (attrs : List (String × AVal)) (k : String) :
    (lastOccurrenceValue attrs k).isSome = true ↔ k ∈ attrs.map Prod.fst := by
  induction attrs with
  | nil => simp [lastOccurrenceValue]
  | cons hd tl ih =>
    obtain ⟨a, v⟩ := hd
    rw [show lastOccurrenceValue ((a, v) :: tl) k
      = match lastOccurrenceValue tl k with
        | some w => some w
        | none => if a = k then some v else none from rfl]
    cases htl : lastOccurrenceValue tl k with
    | some w =>
      rw [htl] at ih
      simp at ih
      simp [ih]
    | none =>
      rw [htl] at ih
      simp at ih
      by_cases hk : a = k
      · simp [hk]
      · have hk' : ¬ k = a := fun h => hk h.symm
        simp [hk, hk', ih]

/-! ## Claim theorems -/

/-- Claim C7: convertSpan sets ParentSpanID to the rendered parent span
id exactly when the declared parent has a valid span id component, and
leaves it empty otherwise; emptiness of ParentSpanID coincides with the
parent lacking a valid span id, which is what marks a root. -/
theorem c7_parent_span_id (span : RawSpan) :
    ((convertSpan span).ParentSpanID
      = if span.parent.hasSpanID then spanIDString span.parent.spanID else "")
    ∧ ((convertSpan span).ParentSpanID = "" ↔ span.parent.hasSpanID = false) := by
  refine ⟨rfl, ?_⟩
  show (if span.parent.hasSpanID then spanIDString span.parent.spanID else "") = "" ↔ _
  by_cases h : span.parent.hasSpanID = true
  · rw [if_pos h, h]
    simp [spanIDString_ne_empty span.parent.spanID]
  · rw [if_neg h]
    simp only [Bool.not_eq_true] at h
    simp [h]

/-- Claim C8: attribute normalization maps exactly the keys occurring in
the input sequence, each to the value of its last occurrence. -/
theorem c8_attributes_last_wins (attrs : List (String × AVal)) (k : String) :
    mapLookup (attributesToMap attrs) k = lastOccurrenceValue attrs k
    ∧ ((mapLookup (attributesToMap attrs) k).isSome = true ↔ k ∈ attrs.map Prod.fst) := by
  have h : mapLookup (attributesToMap attrs) k = lastOccurrenceValue attrs k := by
    rw [attributesToMap, attributesToMap_foldl]
    cases lastOccurrenceValue attrs k <;> rfl
  exact ⟨h, by rw [h]; exact lastOccurrenceValue_isSome attrs k⟩

/-- Claim C9: the converted SameProcessAsParentSpan field is the logical
negation of the IsRemote flag of the span context. -/
theorem c9_same_process (span : RawSpan) :
    (convertSpan span).SameProcessAsParentSpan = { Value := !span.spanContext.isRemote }
    ∧ ((convertSpan span).SameProcessAsParentSpan.Value = true
        ↔ span.spanContext.isRemote = false) := by
  refine ⟨rfl, ?_⟩
  show (!span.spanContext.isRemote) = true ↔ _
  cases span.spanContext.isRemote <;> simp

/-- Claim C1 is violated by the code: in the group below both spans are
parentless, yet convertTrace succeeds (the duplicate-root check tests
the DisplayName sentinel, which the first root leaves empty), the header
is populated from the second root, and ExportSpans saves a document for
the trace id. -/
theorem c1_multiple_roots_missed :
    (convertSpan (mkSpan 1 5 0 "")).ParentSpanID = ""
    ∧ (convertSpan (mkSpan 1 6 0 "B")).ParentSpanID = ""
    ∧ (∃ td, convertTrace [mkSpan 1 5 0 "", mkSpan 1 6 0 "B"] = Except.ok td
        ∧ td.DisplayName = "B")
    ∧ (∃ td, ExportSpans (fun _ => none) (fun _ _ => none)
          [mkSpan 1 5 0 "", mkSpan 1 6 0 "B"]
        = (Except.ok (), 1, [(traceIDString 1, td)],
            [Event.checkCancel 0, Event.convert (traceIDString 1),
              Event.save (traceIDString 1)])) :=
  ⟨rfl, rfl, ⟨_, rfl, rfl⟩, ⟨_, rfl⟩⟩

/-- Claim C4: a trace group with exactly one parentless span assembles
successfully and the document header (DisplayName, StartTime, EndTime)
is copied from that unique root span. -/
theorem c4_unique_root_header (pre post : List RawSpan) (r : RawSpan)
    (hr : (convertSpan r).ParentSpanID = "")
    (hpre : ∀ s ∈ pre, (convertSpan s).ParentSpanID ≠ "")
    (hpost : ∀ s ∈ post, (convertSpan s).ParentSpanID ≠ "") :
    ∃ td, convertTrace (pre ++ r :: post) = Except.ok td
      ∧ td.DisplayName = (convertSpan r).DisplayName
      ∧ td.StartTime = (convertSpan r).StartTime
      ∧ td.EndTime = (convertSpan r).EndTime := by
  obtain ⟨tdp, hok, hdn, hst, het⟩ :=
    convertTraceLoop_no_root pre ({ Spans := [] } : TraceData) hpre
  have happ := convertTraceLoop_append pre (r :: post) ({ Spans := [] } : TraceData)
  rw [hok] at happ
  have happ2 : convertTrace (pre ++ r :: post) = convertTraceLoop (r :: post) tdp := happ
  rw [happ2, convertTraceLoop, if_pos hr]
  have hne : ¬ tdp.DisplayName ≠ "" := by rw [hdn]; simp
  rw [if_neg hne]
  obtain ⟨td', hok', hdn', hst', het'⟩ := convertTraceLoop_no_root post _ hpost
  exact ⟨td', hok', hdn', hst', het'⟩

/-- Concrete assembled document for the trace group of a single root
span named A with span id 5, used by witnesses. -/
def tdA : TraceData :=
  { DisplayName := "A"
    StartTime := timeToMicroseconds 1000000
    EndTime := timeToMicroseconds 2000000
    Spans := [((convertSpan (mkSpan 1 5 0 "A")).SpanID, convertSpan (mkSpan 1 5 0 "A"))] }

/-- Concrete assembled document for the group consisting of the root
span named A with span id 5 and its child named B with span id 6. -/
def tdAB : TraceData :=
  { DisplayName := "A"
    StartTime := timeToMicroseconds 1000000
    EndTime := timeToMicroseconds 2000000
    Spans := [((convertSpan (mkSpan 1 6 5 "B")).SpanID, convertSpan (mkSpan 1 6 5 "B")),
      ((convertSpan (mkSpan 1 5 0 "A")).SpanID, convertSpan (mkSpan 1 5 0 "A"))] }

theorem c4_unique_root_header_witness :
    convertTrace [mkSpan 1 6 5 "B", mkSpan 1 5 0 "A"] = Except.ok tdAB
    ∧ tdAB.DisplayName = (convertSpan (mkSpan 1 5 0 "A")).DisplayName
    ∧ tdAB.StartTime = (convertSpan (mkSpan 1 5 0 "A")).StartTime
    ∧ tdAB.EndTime = (convertSpan (mkSpan 1 5 0 "A")).EndTime := by
  obtain ⟨td, h1, h2, h3, h4⟩ :=
    c4_unique_root_header [mkSpan 1 6 5 "B"] [] (mkSpan 1 5 0 "A")
      (by decide) (by decide) (by decide)
  have heq : td = tdAB :=
    Except.ok.inj (h1.symm.trans (rfl : convertTrace [mkSpan 1 6 5 "B", mkSpan 1 5 0 "A"]
      = Except.ok tdAB))
  subst heq
  exact ⟨h1, h2, h3, h4⟩

/-- Context model that is never cancelled. -/
def ctxNone : Nat → Option Nat := fun _ => none

/-- Store model whose save contract always succeeds. -/
def storeOk : String → TraceData → Option Nat := fun _ _ => none

/-- Claim C5: a trace group with zero parentless spans assembles
successfully, the document header fields stay at their zero values, and
when the export loop reaches such a group without cancellation and the
store accepts the save, the document is persisted for the trace id. -/
theorem c5_rootless_zero_header (spans : List RawSpan)
    (h : ∀ s ∈ spans, (convertSpan s).ParentSpanID ≠ "") :
    ∃ td, convertTrace spans = Except.ok td
      ∧ td.DisplayName = "" ∧ td.StartTime = 0 ∧ td.EndTime = 0
      ∧ ∀ (ctx : Nat → Option Nat) (store : String → TraceData → Option Nat)
          (tid i : Nat) (rest : List (Nat × List RawSpan))
          (saved : List (String × TraceData)) (log : List Event),
          ctx i = none → store (traceIDString tid) td = none →
          exportLoop ctx store ((tid, spans) :: rest) i saved log
            = exportLoop ctx store rest (i + 1) (saved ++ [(traceIDString tid, td)])
                (log ++ [Event.checkCancel i, Event.convert (traceIDString tid),
                  Event.save (traceIDString tid)]) := by
  obtain ⟨td, hok, h1, h2, h3⟩ :=
    convertTraceLoop_no_root spans ({ Spans := [] } : TraceData) h
  refine ⟨td, hok, h1, h2, h3, ?_⟩
  intro ctx store tid i rest saved log hctx hstore
  have hc : convertTrace spans = Except.ok td := hok
  simp only [exportLoop, hctx, hc, hstore]

/-- Concrete assembled document for the rootless group of the single
child span named B with span id 6 and declared parent 5. -/
def c5td : TraceData :=
  { Spans := [((convertSpan (mkSpan 1 6 5 "B")).SpanID, convertSpan (mkSpan 1 6 5 "B"))] }

theorem c5_rootless_zero_header_witness :
    convertTrace [mkSpan 1 6 5 "B"] = Except.ok c5td
    ∧ c5td.DisplayName = "" ∧ c5td.StartTime = 0 ∧ c5td.EndTime = 0
    ∧ exportLoop ctxNone storeOk [(1, [mkSpan 1 6 5 "B"])] 0 [] []
        = exportLoop ctxNone storeOk [] 1 [(traceIDString 1, c5td)]
            [Event.checkCancel 0, Event.convert (traceIDString 1),
              Event.save (traceIDString 1)] := by
  obtain ⟨td, h1, h2, h3, h4, h5⟩ := c5_rootless_zero_header [mkSpan 1 6 5 "B"] (by decide)
  have heq : td = c5td :=
    Except.ok.inj (h1.symm.trans (rfl : convertTrace [mkSpan 1 6 5 "B"] = Except.ok c5td))
  subst heq
  exact ⟨h1, h2, h3, h4, by simpa using h5 ctxNone storeOk 1 0 [] [] [] rfl rfl⟩

/-- Claim C2: export is not atomic across traces. If every group before
the current one was processed successfully and the context is not
cancelled at the current check, then a conversion failure or a store
error on the current group makes the loop return that error at once:
the documents saved for the earlier groups are exactly the saved list
so far (nothing is undone), and the event log shows that the remaining
groups are never converted or saved. -/
theorem c2_not_atomic (ctx : Nat → Option Nat) (store : String → TraceData → Option Nat)
    (pre : List (Nat × List RawSpan)) (tid : Nat) (spans : List RawSpan)
    (post : List (Nat × List RawSpan)) (i i' : Nat)
    (saved saved' : List (String × TraceData)) (log log' : List Event)
    (hpre : exportLoop ctx store pre i saved log = (Except.ok (), i', saved', log'))
    (hctx : ctx i' = none) :
    (∀ e, convertTrace spans = Except.error e →
      exportLoop ctx store (pre ++ (tid, spans) :: post) i saved log
        = (Except.error e, i' + 1, saved',
            log' ++ [Event.checkCancel i', Event.convert (traceIDString tid)]))
    ∧ (∀ td k, convertTrace spans = Except.ok td →
        store (traceIDString tid) td = some k →
      exportLoop ctx store (pre ++ (tid, spans) :: post) i saved log
        = (Except.error (ExpErr.storeError k), i' + 1, saved',
            log' ++ [Event.checkCancel i', Event.convert (traceIDString tid),
              Event.save (traceIDString tid)])) := by
  constructor
  · intro e hconv
    rw [exportLoop_append, hpre]
    show exportLoop ctx store ((tid, spans) :: post) i' saved' log' = _
    rw [exportLoop, hctx, hconv]
  · intro td k hconv hstore
    rw [exportLoop_append, hpre]
    show exportLoop ctx store ((tid, spans) :: post) i' saved' log' = _
    simp only [exportLoop, hctx, hconv, hstore]

/-- Store model that fails with code 7 for trace id 2 and succeeds
otherwise. -/
def storeFail2 : String → TraceData → Option Nat :=
  fun s _ => if s = traceIDString 2 then some 7 else none

/-- Event log left by successfully processing the single group of trace
id 1 from check index 0. -/
def logA : List Event :=
  [Event.checkCancel 0, Event.convert (traceIDString 1), Event.save (traceIDString 1)]

/-- Concrete assembled document for the trace group of a single root
span named B with span id 5 in trace 2. -/
def tdB2 : TraceData :=
  { DisplayName := "B"
    StartTime := timeToMicroseconds 1000000
    EndTime := timeToMicroseconds 2000000
    Spans := [((convertSpan (mkSpan 2 5 0 "B")).SpanID, convertSpan (mkSpan 2 5 0 "B"))] }

theorem c2_not_atomic_witness :
    (exportLoop ctxNone storeOk
        ([(1, [mkSpan 1 5 0 "A"])] ++ (2, [mkSpan 2 5 0 "A", mkSpan 2 6 0 "B"]) :: []) 0 [] []
      = (Except.error ExpErr.multipleRootSpans, 2, [(traceIDString 1, tdA)],
          logA ++ [Event.checkCancel 1, Event.convert (traceIDString 2)]))
    ∧ (exportLoop ctxNone storeFail2
        ([(1, [mkSpan 1 5 0 "A"])] ++ (2, [mkSpan 2 5 0 "B"]) :: []) 0 [] []
      = (Except.error (ExpErr.storeError 7), 2, [(traceIDString 1, tdA)],
          logA ++ [Event.checkCancel 1, Event.convert (traceIDString 2),
            Event.save (traceIDString 2)])) := by
  constructor
  · exact (c2_not_atomic ctxNone storeOk [(1, [mkSpan 1 5 0 "A"])] 2
      [mkSpan 2 5 0 "A", mkSpan 2 6 0 "B"] [] 0 1 [] [(traceIDString 1, tdA)] [] logA
      rfl rfl).1 ExpErr.multipleRootSpans rfl
  · exact (c2_not_atomic ctxNone storeFail2 [(1, [mkSpan 1 5 0 "A"])] 2
      [mkSpan 2 5 0 "B"] [] 0 1 [] [(traceIDString 1, tdA)] [] logA
      rfl rfl).2 tdB2 7 rfl rfl

/-- Claim C3: cancellation is observed exactly once per trace group, at
the start of that group's step, before its assembly and save. If the
context is cancelled at that check, the loop returns the cancellation
error at once, with no conversion or save for that group or any later
one. If it is not cancelled and the group assembles and saves, the step
appends exactly the three events check, convert, save, in that order:
the single cancellation check of the group comes before its conversion
and no check occurs between conversion and save. -/
theorem c3_cancellation_once_per_group (ctx : Nat → Option Nat)
    (store : String → TraceData → Option Nat)
    (pre : List (Nat × List RawSpan)) (tid : Nat) (spans : List RawSpan)
    (post : List (Nat × List RawSpan)) (i i' : Nat)
    (saved saved' : List (String × TraceData)) (log log' : List Event)
    (hpre : exportLoop ctx store pre i saved log = (Except.ok (), i', saved', log')) :
    (∀ e, ctx i' = some e →
      exportLoop ctx store (pre ++ (tid, spans) :: post) i saved log
        = (Except.error (ExpErr.cancelled e), i' + 1, saved',
            log' ++ [Event.checkCancel i']))
    ∧ (∀ td, ctx i' = none → convertTrace spans = Except.ok td →
        store (traceIDString tid) td = none →
      exportLoop ctx store (pre ++ (tid, spans) :: post) i saved log
        = exportLoop ctx store post (i' + 1) (saved' ++ [(traceIDString tid, td)])
            (log' ++ [Event.checkCancel i', Event.convert (traceIDString tid),
              Event.save (traceIDString tid)])) := by
  constructor
  · intro e hctx
    rw [exportLoop_append, hpre]
    show exportLoop ctx store ((tid, spans) :: post) i' saved' log' = _
    rw [exportLoop, hctx]
  · intro td hctx hconv hstore
    rw [exportLoop_append, hpre]
    show exportLoop ctx store ((tid, spans) :: post) i' saved' log' = _
    simp only [exportLoop, hctx, hconv, hstore]

/-- Context model cancelled with code 3 from check index 1 onwards. -/
def ctxCancel1 : Nat → Option Nat := fun i => if i = 0 then none else some 3

theorem c3_cancellation_once_per_group_witness :
    (exportLoop ctxCancel1 storeOk
        ([(1, [mkSpan 1 5 0 "A"])] ++ (2, [mkSpan 2 5 0 "B"]) :: []) 0 [] []
      = (Except.error (ExpErr.cancelled 3), 2, [(traceIDString 1, tdA)],
          logA ++ [Event.checkCancel 1]))
    ∧ (exportLoop ctxNone storeOk ([] ++ (1, [mkSpan 1 5 0 "A"]) :: []) 0 [] []
      = (Except.ok (), 1, [(traceIDString 1, tdA)], logA)) := by
  constructor
  · exact (c3_cancellation_once_per_group ctxCancel1 storeOk [(1, [mkSpan 1 5 0 "A"])] 2
      [mkSpan 2 5 0 "B"] [] 0 1 [] [(traceIDString 1, tdA)] [] logA rfl).1 3 rfl
  · exact ((c3_cancellation_once_per_group ctxNone storeOk [] 1 [mkSpan 1 5 0 "A"] [] 0 0
      [] [] [] [] rfl).2 tdA rfl rfl rfl).trans rfl

theorem mapInsert_length_le {α : Type} (m : List (String × α)) (k : String) (v : α) :
    (mapInsert m k v).length ≤ m.length + 1 := by
  induction m with
  | nil => simp [mapInsert]
  | cons hd tl ih =>
    obtain ⟨a, b⟩ := hd
    rw [mapInsert]
    by_cases h : a = k
    · rw [if_pos h]; simp
    · rw [if_neg h]
      simp only [List.length_cons]
      omega

theorem mapInsert_length_of_mem {α : Type} (m : List (String × α)) (k : String) (v : α)
    (h : (mapLookup m k).isSome = true) : (mapInsert m k v).length = m.length := by
  induction m with
  | nil => simp [mapLookup] at h
  | cons hd tl ih =>
    obtain ⟨a, b⟩ := hd
    rw [mapInsert]
    by_cases hk : a = k
    · rw [if_pos hk]; simp
    · rw [if_neg hk]
      rw [mapLookup, if_neg hk] at h
      simp only [List.length_cons, ih h]

theorem convertTraceLoop_step (s : RawSpan) (rest : List RawSpan) (td td' : TraceData)
    (h : convertTraceLoop (s :: rest) td = Except.ok td') :
    ∃ tdm, convertTraceLoop rest tdm = Except.ok td'
      ∧ tdm.Spans = mapInsert td.Spans ((convertSpan s).SpanID) (convertSpan s) := by
  rw [convertTraceLoop] at h
  by_cases hroot : (convertSpan s).ParentSpanID = ""
  · rw [if_pos hroot] at h
    by_cases hdn : td.DisplayName ≠ ""
    · rw [if_pos hdn] at h; cases h
    · rw [if_neg hdn] at h
      exact ⟨_, h, rfl⟩
  · rw [if_neg hroot] at h
    exact ⟨_, h, rfl⟩

theorem convertTraceLoop_length_le (l : List RawSpan) (td td' : TraceData)
    (h : convertTraceLoop l td = Except.ok td') :
    td'.Spans.length ≤ td.Spans.length + l.length := by
  induction l generalizing td with
  | nil => rw [convertTraceLoop] at h; cases h; simp
  | cons hd tl ih =>
    obtain ⟨tdm, hrest, hsp⟩ := convertTraceLoop_step hd tl td _ h
    have h1 := ih _ hrest
    rw [hsp] at h1
    have h2 := mapInsert_length_le td.Spans ((convertSpan hd).SpanID) (convertSpan hd)
    simp only [List.length_cons]
    omega

theorem convertTraceLoop_keeps_key (l : List RawSpan) (td td' : TraceData) (k : String)
    (h : convertTraceLoop l td = Except.ok td')
    (hk : (mapLookup td.Spans k).isSome = true) :
    (mapLookup td'.Spans k).isSome = true := by
  rw [convertTraceLoop_lookup l td td' h k]
  cases lastConvWith l k <;> simp [hk]

/-- Document assembled from a group of two non-root spans sharing span
id 9 but differing in name: only the later conversion survives. -/
def tdDup : TraceData :=
  { Spans := [((convertSpan (mkSpan 1 9 5 "Y")).SpanID, convertSpan (mkSpan 1 9 5 "Y"))] }

/-- Claim C6 as stated is false: in the group below both spans convert
successfully, but the first span of the group is not present in the
Spans mapping of the resulting document, because the second span shares
its span id and overwrote it. -/
theorem c6_counterexample :
    convertTrace [mkSpan 1 9 5 "X", mkSpan 1 9 5 "Y"] = Except.ok tdDup
    ∧ mkSpan 1 9 5 "X" ∈ [mkSpan 1 9 5 "X", mkSpan 1 9 5 "Y"]
    ∧ convertSpan (mkSpan 1 9 5 "X") ∉ tdDup.Spans.map Prod.snd :=
  ⟨rfl, by decide, by decide⟩

/-- Claim C6 (amended): on success every converted span of the group has
its span id present as a key of the Spans mapping, the stored entry
being the conversion of the last span of the group with that id (so a
span may be absent when a later span shares its id), and every entry of
the mapping has SpanID equal to its key. -/
theorem c6_spans_mapping (spans : List RawSpan) (td : TraceData)
    (h : convertTrace spans = Except.ok td) :
    (∀ s ∈ spans,
      mapLookup td.Spans ((convertSpan s).SpanID) = lastConvWith spans ((convertSpan s).SpanID)
      ∧ (mapLookup td.Spans ((convertSpan s).SpanID)).isSome = true)
    ∧ (∀ k sd, mapLookup td.Spans k = some sd → sd.SpanID = k) := by
  have hlook : ∀ k, mapLookup td.Spans k = lastConvWith spans k := by
    intro k
    have hl := convertTraceLoop_lookup spans ({ Spans := [] } : TraceData) td h k
    rw [hl]
    cases lastConvWith spans k <;> simp [mapLookup]
  constructor
  · intro s hs
    refine ⟨hlook _, ?_⟩
    rw [hlook]
    exact lastConvWith_isSome_of_mem spans s hs
  · intro k sd hsd
    rw [hlook] at hsd
    exact lastConvWith_spanID spans k sd hsd

theorem c6_spans_mapping_witness :
    mapLookup tdAB.Spans ((convertSpan (mkSpan 1 5 0 "A")).SpanID)
      = lastConvWith [mkSpan 1 6 5 "B", mkSpan 1 5 0 "A"]
          ((convertSpan (mkSpan 1 5 0 "A")).SpanID)
    ∧ (mapLookup tdAB.Spans ((convertSpan (mkSpan 1 5 0 "A")).SpanID)).isSome = true :=
  (c6_spans_mapping [mkSpan 1 6 5 "B", mkSpan 1 5 0 "A"] tdAB rfl).1
    (mkSpan 1 5 0 "A") (by decide)

/-- Claim C10: when a group contains two spans converting to the same
span id (the second being the last occurrence of that id), assembly
raises no error for the collision, the mapping entry at that id is the
conversion of the later span (the earlier is silently replaced), and
the mapping holds strictly fewer entries than the group has spans. -/
theorem c10_duplicate_span_ids (spans : List RawSpan) (td : TraceData)
    (pre mid post : List RawSpan) (s1 s2 : RawSpan)
    (hsp : spans = pre ++ s1 :: (mid ++ s2 :: post))
    (hid : (convertSpan s1).SpanID = (convertSpan s2).SpanID)
    (hpost : ∀ s ∈ post, (convertSpan s).SpanID ≠ (convertSpan s2).SpanID)
    (hok : convertTrace spans = Except.ok td) :
    mapLookup td.Spans ((convertSpan s1).SpanID) = some (convertSpan s2)
    ∧ td.Spans.length < spans.length := by
  subst hsp
  constructor
  · have hlook := convertTraceLoop_lookup _ ({ Spans := [] } : TraceData) td hok
      ((convertSpan s1).SpanID)
    have h4 : lastConvWith (s2 :: post) ((convertSpan s1).SpanID) = some (convertSpan s2) := by
      rw [lastConvWith,
        lastConvWith_none post _ (fun s hs => by rw [hid]; exact hpost s hs),
        if_pos hid.symm]
    have h3 : lastConvWith (mid ++ s2 :: post) ((convertSpan s1).SpanID)
        = some (convertSpan s2) := by
      rw [lastConvWith_append, h4]
    have h2 : lastConvWith (s1 :: (mid ++ s2 :: post)) ((convertSpan s1).SpanID)
        = some (convertSpan s2) := by
      rw [lastConvWith, h3]
    have hlast : lastConvWith (pre ++ s1 :: (mid ++ s2 :: post)) ((convertSpan s1).SpanID)
        = some (convertSpan s2) := by
      rw [lastConvWith_append, h2]
    rw [hlook, hlast]
  · have hok' : convertTraceLoop (pre ++ s1 :: (mid ++ s2 :: post))
        ({ Spans := [] } : TraceData) = Except.ok td := hok
    rw [convertTraceLoop_append] at hok'
    cases hpre' : convertTraceLoop pre ({ Spans := [] } : TraceData) with
    | error e => rw [hpre'] at hok'; exact (Except.noConfusion hok')
    | ok tdp =>
      rw [hpre'] at hok'
      have hok2 : convertTraceLoop (s1 :: (mid ++ s2 :: post)) tdp = Except.ok td := hok'
      obtain ⟨td1, hmid1, hsp1⟩ := convertTraceLoop_step s1 _ tdp td hok2
      have hok3 : convertTraceLoop (mid ++ s2 :: post) td1 = Except.ok td := hmid1
      rw [convertTraceLoop_append] at hok3
      cases hmid' : convertTraceLoop mid td1 with
      | error e => rw [hmid'] at hok3; exact (Except.noConfusion hok3)
      | ok td2 =>
        rw [hmid'] at hok3
        have hok4 : convertTraceLoop (s2 :: post) td2 = Except.ok td := hok3
        obtain ⟨td3, hpost3, hsp3⟩ := convertTraceLoop_step s2 _ td2 td hok4
        have hkey1 : (mapLookup td1.Spans ((convertSpan s1).SpanID)).isSome = true := by
          rw [hsp1, mapLookup_insert]
          simp
        have hkey2 : (mapLookup td2.Spans ((convertSpan s2).SpanID)).isSome = true := by
          rw [← hid]
          exact convertTraceLoop_keeps_key mid td1 td2 _ hmid' hkey1
        have l0 : tdp.Spans.length ≤ pre.length := by
          have := convertTraceLoop_length_le pre _ _ hpre'
          simpa using this
        have l1 : td1.Spans.length ≤ tdp.Spans.length + 1 := by
          rw [hsp1]; exact mapInsert_length_le _ _ _
        have l2 : td2.Spans.length ≤ td1.Spans.length + mid.length :=
          convertTraceLoop_length_le mid _ _ hmid'
        have l3 : td3.Spans.length = td2.Spans.length := by
          rw [hsp3]; exact mapInsert_length_of_mem _ _ _ hkey2
        have l4 : td.Spans.length ≤ td3.Spans.length + post.length :=
          convertTraceLoop_length_le post _ _ hpost3
        simp only [List.length_append, List.length_cons]
        omega

theorem c10_duplicate_span_ids_witness :
    mapLookup tdDup.Spans ((convertSpan (mkSpan 1 9 5 "X")).SpanID)
      = some (convertSpan (mkSpan 1 9 5 "Y"))
    ∧ tdDup.Spans.length < ([mkSpan 1 9 5 "X", mkSpan 1 9 5 "Y"]).length :=
  c10_duplicate_span_ids [mkSpan 1 9 5 "X", mkSpan 1 9 5 "Y"] tdDup
    [] [] [] (mkSpan 1 9 5 "X") (mkSpan 1 9 5 "Y") rfl rfl (by decide) rfl

end Genkit
